import Mathlib

/-!
Shallow embedding of the FLST tab-tracking core (the MRU-entry variants of
`TabManager` in tab-manager.ts, `WindowManager` in window-manager.ts and
`StorageManager` in storage-manager.ts, with the type definitions of
types.ts).

Modelling conventions:
* JavaScript arrays become Lean lists; in-place mutation becomes explicit
  state passing (a mutated tracker is written back at the position the
  source mutates through its reference).
* `Date.now()` is modelled as a strictly increasing tick counter threaded
  through every operation that reads the clock: successive reads return
  strictly larger values (millisecond ties are below the model's
  resolution).
* Numeric truthiness is kept: a JavaScript guard `if (x.id)` on a numeric
  id becomes `x.id ≠ 0`.
* Outbound host calls (corrective activates, relocation moves) and the
  assignments to the `skipNextActivation` field are recorded in an action
  trace returned next to the new state; clearing assignments
  (`skipNextActivation = null`) are visible in the returned state only.
-/

namespace FLST

/-- Structure `TabMRUEntry` from types.ts: `{ tabId, order }`, where `order`
is the `Date.now()` timestamp assigned at insertion or on a touch. -/
structure TabMRUEntry where
  tabId : Nat
  order : Nat
deriving DecidableEq, Repr

/-- Structure `TabTracker` from types.ts: `{ tabarr, wid, moveok }`. -/
structure TabTracker where
  tabarr : List TabMRUEntry
  wid : Nat
  moveok : Bool
deriving DecidableEq, Repr

/-- Enumeration `SkipActivationReason` from types.ts. -/
inductive SkipActivationReason where
  | newTab
  | attach
  | detach
  | tabFlip
  | closeTab
  | closeTabCorrection
deriving DecidableEq, Repr

/-- Structure `SkipActivationInfo` from types.ts:
`{ reason, expectedTabId? }`. -/
structure SkipActivationInfo where
  reason : SkipActivationReason
  expectedTabId : Option Nat
deriving DecidableEq, Repr

/-- The settings snapshot consumed by the handlers (`flip`, `ntsel`,
`reloc`); the source stores 0/1 numbers and tests them by truthiness,
modelled as booleans. -/
structure Settings where
  flip : Bool
  ntsel : Bool
  reloc : Bool
deriving DecidableEq, Repr

/-- One tab as reported by the host (`chrome.windows.getAll` with
`populate: true`): its id and whether it is the active tab. -/
structure HostTab where
  id : Nat
  active : Bool
deriving DecidableEq, Repr

/-- One window as reported by the host; `isNormal` models
`windowObj.type === "normal"`. -/
structure HostWindow where
  id : Nat
  isNormal : Bool
  tabs : List HostTab
deriving DecidableEq, Repr

/-- Structure `StoredTrackingState` from types.ts:
`{ trackingState, timestamp, version }` (the version string is irrelevant
to the claims and omitted). -/
structure StoredTrackingState where
  trackingState : List TabTracker
  timestamp : Nat
deriving DecidableEq, Repr

/-- The tab ids of a tracker's MRU array, in array order. -/
def trackedIds (t : TabTracker) : List Nat :=
  t.tabarr.map (·.tabId)

/-- The tab ids of a host window, in host order. -/
def windowTabIds (w : HostWindow) : List Nat :=
  w.tabs.map (·.id)

/-- `TabManager.addTabToMRU`: builds `{ tabId, order: Date.now() }` and
`unshift`s it for position `"first"`, `push`es it for `"last"`.  There is
no duplicate check in the source.  Returns the new array and the new
clock. -/
def addTabToMRU (tabarr : List TabMRUEntry) (tabId : Nat) (posFirst : Bool)
    (c : Nat) : List TabMRUEntry × Nat :=
  let entry : TabMRUEntry := { tabId := tabId, order := c }
  (if posFirst then entry :: tabarr else tabarr ++ [entry], c + 1)

/-- `TabManager.removeTabFromMRU`: `findIndex` by `tabId` then
`splice(index, 1)`, i.e. remove the first entry with that id (no-op when
absent). -/
def removeTabFromMRU : List TabMRUEntry → Nat → List TabMRUEntry
  | [], _ => []
  | e :: rest, tid => if e.tabId == tid then rest else e :: removeTabFromMRU rest tid

/-- `TabManager.updateTabTimestamp`: `find` the first entry with the given
id and set its `order = Date.now()`; nothing happens when the id is
absent. -/
def updateTabTimestamp : List TabMRUEntry → Nat → Nat → List TabMRUEntry
  | [], _, _ => []
  | e :: rest, tid, now =>
      if e.tabId == tid then { e with order := now } :: rest
      else e :: updateTabTimestamp rest tid now

/-- The comparator `(a, b) => b.order - a.order` used by the source's
sorts: `a` stays before `b` exactly when `a.order ≥ b.order`. -/
def byOrderDesc (a b : TabMRUEntry) : Prop :=
  b.order ≤ a.order

instance : DecidableRel byOrderDesc := fun a b => Nat.decLe b.order a.order

instance : IsTotal TabMRUEntry byOrderDesc :=
  ⟨fun a b => le_total b.order a.order⟩

instance : IsTrans TabMRUEntry byOrderDesc :=
  ⟨fun _ _ _ h1 h2 => le_trans h2 h1⟩

/-- `[...tabarr].sort((a, b) => b.order - a.order)`: JavaScript's sort is
stable, so it is modelled by stable insertion sort under `byOrderDesc`. -/
def sortDesc (tabarr : List TabMRUEntry) : List TabMRUEntry :=
  tabarr.insertionSort byOrderDesc

/-- `TabManager.getMostRecentTabId`: the head of the descending sort, or
`null` on the empty array. -/
def getMostRecentTabId (tabarr : List TabMRUEntry) : Option Nat :=
  match sortDesc tabarr with
  | [] => none
  | e :: _ => some e.tabId

/-- `TabManager.getMostRecentTabExcluding`: filter the excluded id out,
then the head of the descending sort, or `null` when nothing survives. -/
def getMostRecentTabExcluding (tabarr : List TabMRUEntry) (excludeTabId : Nat) :
    Option Nat :=
  let filtered := tabarr.filter (fun e => e.tabId != excludeTabId)
  match sortDesc filtered with
  | [] => none
  | e :: _ => some e.tabId

/-- `TabManager.findTabInMRU`: `findIndex` by id, as an optional index. -/
def findTabInMRU : List TabMRUEntry → Nat → Option Nat
  | [], _ => none
  | e :: rest, tid =>
      if e.tabId == tid then some 0 else (findTabInMRU rest tid).map (· + 1)

/-- `StorageManager.loadTrackingState`, as a pure function of the stored
value and the current clock: a missing or malformed record gives `[]`, a
record older than 24 hours (86400000 ms) gives `[]`, otherwise the stored
tracker list is returned. -/
def loadTrackingState (stored : Option StoredTrackingState) (now : Nat) :
    List TabTracker :=
  match stored with
  | none => []
  | some sd =>
      let maxAge := 24 * 60 * 60 * 1000
      if now - sd.timestamp > maxAge then [] else sd.trackingState

/-- Outbound effects of a handler, in issue order.  `skipWrite` records a
(non-null) assignment to `skipNextActivation`; `activate` records a
corrective `chrome.tabs.update(tabId, { active: true })` issued through
`safeTabUpdate`; `relocate` records the `chrome.tabs.move` issued by
`relocateTabToFarRight` through `safeTabMove`. -/
inductive Action where
  | skipWrite (info : SkipActivationInfo)
  | activate (tabId : Nat)
  | relocate (tabId : Nat)
deriving DecidableEq, Repr

/-- The corrective activates contained in a trace. -/
def activations (acts : List Action) : List Nat :=
  acts.filterMap (fun a =>
    match a with
    | .activate tid => some tid
    | _ => none)

/-- The mutable state of the tracking core: the `WindowManager`'s tracker
list, the `TabManager`'s `skipNextActivation` field, and the clock. -/
structure TMState where
  trackers : List TabTracker
  skip : Option SkipActivationInfo
  clock : Nat
deriving DecidableEq, Repr

/-- `TabManager.setFocus`: assign `skipNextActivation = { reason }` (note:
without `expectedTabId`), then issue the activate through `safeTabUpdate`.
Returns the new skip value and the emitted actions. -/
def setFocus (tabId : Nat) (reason : SkipActivationReason) :
    Option SkipActivationInfo × List Action :=
  (some { reason := reason, expectedTabId := none },
   [Action.skipWrite { reason := reason, expectedTabId := none },
    Action.activate tabId])

/-- `WindowManager.getWindowTracker`: `find` by window id.  The source's
side trip through `reinitializeWindow` on a miss issues an asynchronous
host query; the repair path the claims exercise is the explicit
`reconcileWithBrowserState` call made by the handlers themselves, modelled
below. -/
def getWindowTracker (trs : List TabTracker) (wid : Nat) : Option TabTracker :=
  trs.find? (fun t => t.wid == wid)

/-- Replace the first tracker whose `wid` matches (the source mutates that
tracker through the reference `find` returned). -/
def updateTrackerByWid : List TabTracker → Nat → TabTracker → List TabTracker
  | [], _, _ => []
  | t :: rest, wid, t' =>
      if t.wid == wid then t' :: rest else t :: updateTrackerByWid rest wid t'

/-- Replace the tracker at a known position (the source mutates the tracker
whose array `findTab` returned). -/
def replaceTrackerAt : List TabTracker → Nat → TabTracker → List TabTracker
  | [], _, _ => []
  | _ :: rest, 0, t' => t' :: rest
  | t :: rest, k + 1, t' => t :: replaceTrackerAt rest k t'

/-- `WindowManager.findTab`: scan the trackers in order and return the
first tracker containing the id together with the entry's index.  The
model also returns the tracker's position so the in-place mutation of the
returned array can be written back. -/
def findTabAux (trs : List TabTracker) (tid : Nat) (k : Nat) :
    Option (Nat × TabTracker × Nat) :=
  match trs with
  | [] => none
  | t :: rest =>
      match findTabInMRU t.tabarr tid with
      | some loc => some (k, t, loc)
      | none => findTabAux rest tid (k + 1)

/-- Intermediate result of the tab loop inside `WindowManager.addWindow`. -/
structure ScanOut where
  arr : List TabMRUEntry
  clock : Nat
  sel : Option Nat
deriving DecidableEq, Repr

/-- The tab loop of `WindowManager.addWindow`: tabs with falsy id are
skipped; a non-active tab is pushed with a fresh `createTabEntry`
timestamp; an active tab only records `selectedId` (each active tab
overwrites it, so the last one wins). -/
def addWindowScan : List HostTab → Nat → Option Nat → ScanOut
  | [], c, sel => { arr := [], clock := c, sel := sel }
  | t :: ts, c, sel =>
      if t.id == 0 then addWindowScan ts c sel
      else if t.active then addWindowScan ts c (some t.id)
      else
        let out := addWindowScan ts (c + 1) sel
        { out with arr := { tabId := t.id, order := c } :: out.arr }

/-- `WindowManager.addWindow` on a window that passed the id guard: run the
tab loop, then push the selected tab last (most recent) when one was
seen. -/
def addWindowTracker (w : HostWindow) (c : Nat) : TabTracker × Nat :=
  let out := addWindowScan w.tabs c none
  match out.sel with
  | some sid =>
      ({ tabarr := out.arr ++ [{ tabId := sid, order := out.clock }],
         wid := w.id, moveok := w.isNormal }, out.clock + 1)
  | none =>
      ({ tabarr := out.arr, wid := w.id, moveok := w.isNormal }, out.clock)

/-- `WindowManager.addWindow`: invalid (falsy-id) windows are dropped;
otherwise the built tracker is pushed onto the tracker list. -/
def addWindow (trs : List TabTracker) (w : HostWindow) (c : Nat) :
    List TabTracker × Nat :=
  if w.id == 0 then (trs, c)
  else
    let tc := addWindowTracker w c
    (trs ++ [tc.1], tc.2)

/-- `WindowManager.setTracking`: reset the tracker list and `addWindow`
every reported window. -/
def setTracking (ws : List HostWindow) (c : Nat) : List TabTracker × Nat :=
  ws.foldl (fun acc w => addWindow acc.1 w acc.2) ([], c)

/-- `WindowManager.validateTracking`: every tracker must have duplicate-free
tab ids (`new Set(tabIds).size === tabIds.length`) and every entry must
have truthy `tabId` and `order`. -/
def validateTracking (trs : List TabTracker) : Bool :=
  trs.all (fun tracker =>
    let tabIds := trackedIds tracker
    tabIds.dedup.length == tabIds.length &&
      tracker.tabarr.all (fun e => e.tabId != 0 && e.order != 0))

/-- A JavaScript value as it occurs in `validateRestoredState`'s membership
test: the queried array holds numbers, the probed elements are
`TabMRUEntry` objects. -/
inductive JsVal where
  | num (n : Nat)
  | obj (e : TabMRUEntry)
deriving DecidableEq, Repr

/-- JavaScript strict equality restricted to the values above: two numbers
compare by value; a number and an object are never strictly equal; two
objects compare by reference (never exercised here — the queried array
holds only numbers — so modelled as false). -/
def jsStrictEq : JsVal → JsVal → Bool
  | .num a, .num b => a == b
  | _, _ => false

/-- `Array.prototype.includes` with strict-equality semantics. -/
def jsIncludes (l : List JsVal) (v : JsVal) : Bool :=
  l.any (fun x => jsStrictEq x v)

/-- `WindowManager.validateRestoredState`: window counts must match, every
restored tracker must find its window, tab counts must match, and every
element of `tracker.tabarr` must pass
`currentTabIds.includes(tabId)` — where `currentTabIds` holds numbers
while the iterated `tabId` is a whole `TabMRUEntry` object, compared by
strict equality.  The two `.sort()` calls (default comparator) only
permute the arrays and cannot change lengths or membership, so they are
not reproduced. -/
def validateRestoredState (currentWindows : List HostWindow)
    (restoredState : List TabTracker) : Bool :=
  currentWindows.length == restoredState.length &&
  restoredState.all (fun tracker =>
    match currentWindows.find? (fun w => w.id == tracker.wid) with
    | none => false
    | some cw =>
        let currentTabIds := (windowTabIds cw).map JsVal.num
        currentTabIds.length == tracker.tabarr.length &&
          tracker.tabarr.all (fun e => jsIncludes currentTabIds (JsVal.obj e)))

/-- The adoption decision inside `WindowManager.initializeTracking`:
`restoreTrackingState` yields the loaded list when non-empty (else null),
and the restored state is adopted only when `validateRestoredState`
accepts it; otherwise `setTracking` builds fresh state from the host
snapshot. -/
def initializeTrackingChoice (restored : List TabTracker)
    (ws : List HostWindow) (c : Nat) : List TabTracker × Nat :=
  if restored.length > 0 && validateRestoredState ws restored then (restored, c)
  else setTracking ws c

/-- Spec-modelled comparison (from the spec's words, for claim C5): the
loaded snapshot's container/item sets agree with the live host snapshot —
same number of windows, each restored window still present, and per window
the same set of tab ids. -/
def specSetsAgree (ws : List HostWindow) (restored : List TabTracker) : Bool :=
  ws.length == restored.length &&
  restored.all (fun tr =>
    match ws.find? (fun w => w.id == tr.wid) with
    | none => false
    | some w =>
        (windowTabIds w).all (fun i => (trackedIds tr).contains i) &&
          (trackedIds tr).all (fun i => (windowTabIds w).contains i))

/-- Result of `WindowManager.reconcileWithBrowserState`: the new tracker
list, the clock, and `reconciliationChanges` (the persisted snapshot is
rewritten exactly when `changes > 0`). -/
structure ReconcileResult where
  trackers : List TabTracker
  clock : Nat
  changes : Nat
deriving DecidableEq, Repr

/-- The missing-tabs loop of reconciliation: for each id in `missing`
(computed up front), look the tab up in the window and insert a fresh
entry — `push` (most recent) when the tab is active, `unshift` (least
recent) otherwise. -/
def insertMissing (tabarr : List TabMRUEntry) (w : HostWindow) :
    List Nat → Nat → Nat → List TabMRUEntry × Nat × Nat
  | [], c, ch => (tabarr, c, ch)
  | tid :: rest, c, ch =>
      match w.tabs.find? (fun t => t.id == tid) with
      | some t =>
          let e : TabMRUEntry := { tabId := tid, order := c }
          let tabarr' := if t.active then tabarr ++ [e] else e :: tabarr
          insertMissing tabarr' w rest (c + 1) (ch + 1)
      | none => insertMissing tabarr w rest c ch

/-- The orphaned-tabs loop of reconciliation: for each id in `orphaned`,
`findIndex` and `splice` the first matching entry, counting a change when
one was found. -/
def removeOrphans : List TabMRUEntry → List Nat → Nat → List TabMRUEntry × Nat
  | tabarr, [], ch => (tabarr, ch)
  | tabarr, tid :: rest, ch =>
      if tabarr.any (fun e => e.tabId == tid) then
        removeOrphans (removeTabFromMRU tabarr tid) rest (ch + 1)
      else removeOrphans tabarr rest ch

/-- One iteration of reconciliation's window loop: windows with falsy id
are skipped; a window without a tracker gets one via `addWindow`;
otherwise the set differences against the tracked ids are inserted and
removed on the tracker found (and mutated) in place. -/
def reconcileOneWindow (trs : List TabTracker) (w : HostWindow) (c ch : Nat) :
    ReconcileResult :=
  if w.id == 0 then { trackers := trs, clock := c, changes := ch }
  else
    match getWindowTracker trs w.id with
    | none =>
        let ac := addWindow trs w c
        { trackers := ac.1, clock := ac.2, changes := ch + 1 }
    | some tracker =>
        let currentTabIds := windowTabIds w
        let trackedTabIds := trackedIds tracker
        let missing := currentTabIds.filter (fun i => !(trackedTabIds.contains i))
        let im := insertMissing tracker.tabarr w missing c ch
        let orphaned := trackedTabIds.filter (fun i => !(currentTabIds.contains i))
        let ro := removeOrphans im.1 orphaned im.2.2
        { trackers := updateTrackerByWid trs w.id { tracker with tabarr := ro.1 },
          clock := im.2.1, changes := ro.2 }

/-- The window loop of reconciliation. -/
def reconcileLoop (trs : List TabTracker) : List HostWindow → Nat → Nat →
    ReconcileResult
  | [], c, ch => { trackers := trs, clock := c, changes := ch }
  | w :: ws, c, ch =>
      let r := reconcileOneWindow trs w c ch
      reconcileLoop r.trackers ws r.clock r.changes

/-- `WindowManager.reconcileWithBrowserState` as a pure function of the
host snapshot: run the window loop, then drop trackers whose window no
longer exists, counting each dropped tracker as a change. -/
def reconcileWithBrowserState (trs : List TabTracker) (ws : List HostWindow)
    (c : Nat) : ReconcileResult :=
  let r := reconcileLoop trs ws c 0
  let currentWindowIds := ws.map (·.id)
  let orphanedTrackers := r.trackers.filter
    (fun t => !(currentWindowIds.contains t.wid))
  { trackers := r.trackers.filter (fun t => currentWindowIds.contains t.wid),
    clock := r.clock,
    changes := r.changes + orphanedTrackers.length }

/-- `TabManager.handleTabClose`: locate the closed tab; when the (still
pre-removal) array has more than one entry and flip is on, compute
`getMostRecentTabExcluding` before removal and — only for a truthy result
(`if (nextTabId)`, i.e. non-null and non-zero) — assign
`skipNextActivation = { reason: CLOSE_TAB, expectedTabId }` and `setFocus`
the computed tab (note that `setFocus` immediately overwrites that
assignment with `{ reason: CLOSE_TAB }` only); finally `splice` the closed
entry out regardless of the policy. -/
def handleTabClose (st : TMState) (settings : Settings) (tabId : Nat) :
    TMState × List Action :=
  match findTabAux st.trackers tabId 0 with
  | none => (st, [])
  | some (k, tracker, tabloc) =>
      let tabarr := tracker.tabarr
      let branch : Option SkipActivationInfo × List Action :=
        if tabarr.length > 1 && settings.flip then
          match getMostRecentTabExcluding tabarr tabId with
          | some nextTabId =>
              if nextTabId != 0 then
                let w1 : SkipActivationInfo :=
                  { reason := .closeTab, expectedTabId := some nextTabId }
                let s := setFocus nextTabId .closeTab
                (s.1, Action.skipWrite w1 :: s.2)
              else (st.skip, [])
          | none => (st.skip, [])
        else (st.skip, [])
      let trackers2 := replaceTrackerAt st.trackers k
        { tracker with tabarr := tabarr.eraseIdx tabloc }
      ({ st with trackers := trackers2, skip := branch.1 }, branch.2)

/-- `TabManager.handleTabAttach`: when the target window is tracked, push
the tab to the MRU tail with `addTabToMRU` — with no duplicate check — and
set `skipNextActivation = { reason: ATTACH }`. -/
def handleTabAttach (st : TMState) (tabId newWindowId : Nat) :
    TMState × List Action :=
  match getWindowTracker st.trackers newWindowId with
  | none => (st, [])
  | some tracker =>
      let am := addTabToMRU tracker.tabarr tabId false st.clock
      let si : SkipActivationInfo := { reason := .attach, expectedTabId := none }
      ({ trackers := updateTrackerByWid st.trackers newWindowId
           { tracker with tabarr := am.1 },
         skip := some si, clock := am.2 },
       [Action.skipWrite si])

/-- The insert/select part of `TabManager.handleNewTab`, after the tracker
has been obtained: on a truthy tab id, a duplicate is left untouched;
otherwise with `ntsel` on the tab is focused and pushed last, and with
`ntsel` off it is unshifted first. -/
def handleNewTabCore (st : TMState) (settings : Settings) (tracker : TabTracker)
    (windowId tabId : Nat) : TMState × List Action :=
  let relocActs : List Action :=
    if settings.reloc && tracker.moveok && tabId != 0 then
      [Action.relocate tabId]
    else []
  if tabId == 0 then (st, relocActs)
  else
    match findTabInMRU tracker.tabarr tabId with
    | some _ => (st, relocActs)
    | none =>
        if settings.ntsel then
          let s := setFocus tabId .newTab
          let am := addTabToMRU tracker.tabarr tabId false st.clock
          ({ trackers := updateTrackerByWid st.trackers windowId
               { tracker with tabarr := am.1 },
             skip := s.1, clock := am.2 },
           relocActs ++ s.2)
        else
          let am := addTabToMRU tracker.tabarr tabId true st.clock
          ({ st with
             trackers := updateTrackerByWid st.trackers windowId
               { tracker with tabarr := am.1 },
             clock := am.2 },
           relocActs)

/-- `TabManager.handleNewTab`: bail out on a falsy window id; on a tracker
miss run reconciliation against the host snapshot and retry the lookup;
then relocate/insert per the settings. -/
def handleNewTab (st : TMState) (settings : Settings) (ws : List HostWindow)
    (windowId tabId : Nat) : TMState × List Action :=
  if windowId == 0 then (st, [])
  else
    match getWindowTracker st.trackers windowId with
    | some tracker => handleNewTabCore st settings tracker windowId tabId
    | none =>
        let r := reconcileWithBrowserState st.trackers ws st.clock
        let st1 : TMState := { st with trackers := r.trackers, clock := r.clock }
        match getWindowTracker r.trackers windowId with
        | some tracker => handleNewTabCore st1 settings tracker windowId tabId
        | none => (st1, [])

/-- Tail of `TabManager.handleTabActivation` once the tab was found in the
MRU: a tab that is already the most recent is left alone; otherwise its
timestamp is touched. -/
def activationFinish (st : TMState) (windowId tabId : Nat)
    (tracker : TabTracker) : TMState × List Action :=
  if getMostRecentTabId tracker.tabarr == some tabId then (st, [])
  else
    let tabarr2 := updateTabTimestamp tracker.tabarr tabId st.clock
    ({ st with
       trackers := updateTrackerByWid st.trackers windowId
         { tracker with tabarr := tabarr2 },
       clock := st.clock + 1 },
     [])

/-- Middle of `TabManager.handleTabActivation`: the tab lookup in the MRU
array, with one reconciliation-and-retry on a miss.  The source retries on
the same array object reconciliation mutated in place; the model re-reads
the window's tracker after reconciliation. -/
def activationTouch (st : TMState) (ws : List HostWindow)
    (windowId tabId : Nat) (tracker : TabTracker) : TMState × List Action :=
  match findTabInMRU tracker.tabarr tabId with
  | some _ => activationFinish st windowId tabId tracker
  | none =>
      let r := reconcileWithBrowserState st.trackers ws st.clock
      let st1 : TMState := { st with trackers := r.trackers, clock := r.clock }
      match getWindowTracker r.trackers windowId with
      | none => (st1, [])
      | some tracker1 =>
          match findTabInMRU tracker1.tabarr tabId with
          | some _ => activationFinish st1 windowId tabId tracker1
          | none => (st1, [])

/-- The tracker lookup of `TabManager.handleTabActivation`, with one
reconciliation-and-retry on a miss. -/
def activationCore (st : TMState) (ws : List HostWindow)
    (windowId tabId : Nat) : TMState × List Action :=
  match getWindowTracker st.trackers windowId with
  | some tracker => activationTouch st ws windowId tabId tracker
  | none =>
      let r := reconcileWithBrowserState st.trackers ws st.clock
      let st1 : TMState := { st with trackers := r.trackers, clock := r.clock }
      match getWindowTracker r.trackers windowId with
      | some tracker => activationTouch st1 ws windowId tabId tracker
      | none => (st1, [])

/-- `TabManager.handleTabActivation`: with a pending `skipNextActivation`,
the guard `skipInfo.reason === CLOSE_TAB && skipInfo.expectedTabId`
requires a truthy `expectedTabId`; when it holds, a matching incoming tab
consumes the skip and falls through to the normal pass, a mismatching one
consumes the skip and `setFocus`es the expected tab
(`CLOSE_TAB_CORRECTION`) and returns; for every other pending skip, the
skip is consumed and the event is dropped.  Without a pending skip the
normal locate-and-touch pass runs. -/
def handleTabActivation (st : TMState) (ws : List HostWindow)
    (windowId tabId : Nat) : TMState × List Action :=
  match st.skip with
  | some skipInfo =>
      match skipInfo.expectedTabId with
      | some etid =>
          if skipInfo.reason == .closeTab && etid != 0 then
            if etid == tabId then
              activationCore { st with skip := none } ws windowId tabId
            else
              let s := setFocus etid .closeTabCorrection
              ({ st with skip := s.1 }, s.2)
          else ({ st with skip := none }, [])
      | none => ({ st with skip := none }, [])
  | none => activationCore st ws windowId tabId

/-- One host response to a move/update attempt: success, or a failure with
the error message `chrome.runtime.lastError` carries. -/
inductive AttemptResult where
  | ok
  | err (msg : String)
deriving DecidableEq, Repr

/-- Containment of one character list in another, used to model
`String.prototype.includes`. -/
def listContains (pat : List Char) : List Char → Bool
  | [] => pat.isEmpty
  | c :: rest => pat.isPrefixOf (c :: rest) || listContains pat rest

/-- `errorMsg?.includes("user may be dragging")`: substring containment. -/
def includesSub (s pat : String) : Bool :=
  listContains pat.toList s.toList

/-- Observable outcome of a `safeTabMove`/`safeTabUpdate` run: how many
attempts were issued, the delay before each retry, and the terminal
result (`none` = success, `some msg` = failure reported/logged). -/
structure RetryResult where
  attempts : Nat
  delaysMs : List Nat
  outcome : Option String
deriving DecidableEq, Repr

/-- `TabManager.safeTabMove` (and structurally identically
`safeTabUpdate`), driven by an oracle giving the host's response to the
attempt with each `retryCount`: on a failure whose message contains
"user may be dragging" and with `retryCount < 3` (maxRetries), retry after
a fixed 200 ms delay; any other failure — and a dragging failure once the
retries are exhausted — is terminal and reported to the caller (logged,
for `safeTabUpdate`). -/
def safeTabMoveGo (oracle : Nat → AttemptResult) (retryCount : Nat) :
    RetryResult :=
  match oracle retryCount with
  | .ok => { attempts := 1, delaysMs := [], outcome := none }
  | .err msg =>
      if includesSub msg "user may be dragging" then
        if h : retryCount < 3 then
          let r := safeTabMoveGo oracle (retryCount + 1)
          { attempts := r.attempts + 1, delaysMs := 200 :: r.delaysMs,
            outcome := r.outcome }
        else { attempts := 1, delaysMs := [], outcome := some msg }
      else { attempts := 1, delaysMs := [], outcome := some msg }
termination_by 4 - retryCount
decreasing_by omega

/-- The `selectedId` accumulation step of `addWindow`'s tab loop: an active
tab with a truthy id overwrites the accumulator. -/
def selFold (acc : Option Nat) (t : HostTab) : Option Nat :=
  if t.id != 0 && t.active then some t.id else acc

/-- A tracker is in sync with a host window when it tracks exactly the
window's tab ids (as sets). -/
def syncedWith (t : TabTracker) (w : HostWindow) : Prop :=
  ∀ i, i ∈ trackedIds t ↔ i ∈ windowTabIds w

/-- Scenario: one window tracking tabs 1, 2, 3, activated in that order
(3 most recent by `order`). -/
def closeScenarioStart : TMState :=
  { trackers := [{ tabarr := [⟨1, 10⟩, ⟨2, 20⟩, ⟨3, 30⟩], wid := 1, moveok := true }],
    skip := none, clock := 100 }

/-- Settings with the flip policy on. -/
def flipSettings : Settings :=
  { flip := true, ntsel := false, reloc := false }

/-- The state after closing tab 3 in the scenario above. -/
def closeScenarioAfter : TMState :=
  (handleTabClose closeScenarioStart flipSettings 3).1

/-- Tracker list built by `addWindow` for a window holding the single
(active) tab 5. -/
def attachScenarioTrackers : List TabTracker :=
  (addWindow [] { id := 1, isNormal := true, tabs := [⟨5, true⟩] } 10).1

/-- The state after an attach event reports tab 5 attached to window 1,
where tab 5 is already tracked there. -/
def attachScenarioAfter : TMState :=
  (handleTabAttach { trackers := attachScenarioTrackers, skip := none, clock := 20 } 5 1).1

/-- A live host snapshot: window 1 with tabs 5 and 6 (6 active). -/
def liveWindows : List HostWindow :=
  [{ id := 1, isNormal := true, tabs := [⟨5, false⟩, ⟨6, true⟩] }]

/-- A restored snapshot whose window/tab sets agree exactly with
`liveWindows`. -/
def restoredAgreeing : List TabTracker :=
  [{ tabarr := [⟨5, 100⟩, ⟨6, 200⟩], wid := 1, moveok := true }]

/-- An error message carrying the recognized transient condition. -/
def draggingMsg : String :=
  "Tabs cannot be edited right now (user may be dragging a tab)."

/-- An error message outside the recognized transient condition. -/
def otherErrMsg : String :=
  "No tab with id: 42."

lemma findTabInMRU_isSome_iff (arr : List TabMRUEntry) (tid : Nat) :
    (findTabInMRU arr tid).isSome ↔ tid ∈ arr.map (·.tabId) := by
  induction arr with
  | nil => simp [findTabInMRU]
  | cons e rest ih =>
      by_cases h : e.tabId = tid
      · simp [findTabInMRU, h]
      · have hmap : (Option.map (fun x => x + 1) (findTabInMRU rest tid)).isSome
            = (findTabInMRU rest tid).isSome := by
          cases findTabInMRU rest tid <;> rfl
        simp [findTabInMRU, h, hmap, ih, Ne.symm h]

/-- Claim C10 — touch of an absent id is a no-op: `updateTabTimestamp`
leaves an MRU array completely unchanged when the touched id is not
present in it. -/
theorem updateTabTimestamp_absent_noop (arr : List TabMRUEntry) (tid now : Nat)
    (h : tid ∉ arr.map (·.tabId)) : updateTabTimestamp arr tid now = arr := by
  induction arr with
  | nil => rfl
  | cons e rest ih =>
      simp only [List.map_cons, List.mem_cons] at h
      push_neg at h
      have hb : (e.tabId == tid) = false := by simpa using Ne.symm h.1
      simp [updateTabTimestamp, hb, ih h.2]

/-- Witness for C10 at a concrete input. -/
theorem updateTabTimestamp_absent_noop_witness :
    updateTabTimestamp [⟨1, 10⟩, ⟨2, 20⟩] 7 99 = [⟨1, 10⟩, ⟨2, 20⟩] :=
  updateTabTimestamp_absent_noop [⟨1, 10⟩, ⟨2, 20⟩] 7 99 (by decide)

/-- Claim C8 — snapshot staleness bound: a stored tracking snapshot whose
age exceeds 24 hours (86400000 ms) loads as the empty state, while one
within the bound loads as stored. -/
theorem loadTrackingState_staleness (sd : StoredTrackingState) (now : Nat) :
    (now - sd.timestamp > 86400000 → loadTrackingState (some sd) now = []) ∧
    (now - sd.timestamp ≤ 86400000 →
      loadTrackingState (some sd) now = sd.trackingState) := by
  constructor
  · intro h
    simp only [loadTrackingState]
    rw [if_pos]
    exact h
  · intro h
    simp only [loadTrackingState]
    rw [if_neg]
    omega

/-- Witness for C8: a snapshot 25 hours old loads empty; one 1 hour old
loads as stored. -/
theorem loadTrackingState_staleness_witness :
    loadTrackingState (some ⟨restoredAgreeing, 0⟩) 90000000 = [] ∧
    loadTrackingState (some ⟨restoredAgreeing, 0⟩) 3600000 = restoredAgreeing :=
  ⟨(loadTrackingState_staleness ⟨restoredAgreeing, 0⟩ 90000000).1 (by decide),
   (loadTrackingState_staleness ⟨restoredAgreeing, 0⟩ 3600000).2 (by decide)⟩

/-- Claim C9 — bounded retry of corrective actions: a host call failing
with the recognized user-dragging condition on every attempt is retried
exactly 3 times, each after a fixed 200 ms delay, and then reported as a
terminal failure; a failure outside that condition is terminal immediately
with no retry; a success ends the run at once. -/
theorem safe_retry_bounded (oracle : Nat → AttemptResult) (msg : String) :
    ((∀ k, oracle k = .err msg) → includesSub msg "user may be dragging" = true →
      safeTabMoveGo oracle 0 =
        { attempts := 4, delaysMs := [200, 200, 200], outcome := some msg }) ∧
    (∀ rc, oracle rc = .err msg → includesSub msg "user may be dragging" = false →
      safeTabMoveGo oracle rc = { attempts := 1, delaysMs := [], outcome := some msg }) ∧
    (∀ rc, oracle rc = .ok →
      safeTabMoveGo oracle rc = { attempts := 1, delaysMs := [], outcome := none }) := by
  refine ⟨?_, ?_, ?_⟩
  · intro hk hdrag
    have h3 : safeTabMoveGo oracle 3 =
        { attempts := 1, delaysMs := [], outcome := some msg } := by
      rw [safeTabMoveGo, hk 3]
      simp [hdrag]
    have h2 : safeTabMoveGo oracle 2 =
        { attempts := 2, delaysMs := [200], outcome := some msg } := by
      rw [safeTabMoveGo, hk 2]
      simp [hdrag, h3]
    have h1 : safeTabMoveGo oracle 1 =
        { attempts := 3, delaysMs := [200, 200], outcome := some msg } := by
      rw [safeTabMoveGo, hk 1]
      simp [hdrag, h2]
    rw [safeTabMoveGo, hk 0]
    simp [hdrag, h1]
  · intro rc hrc hdrag
    rw [safeTabMoveGo, hrc]
    simp [hdrag]
  · intro rc hrc
    rw [safeTabMoveGo, hrc]

/-- Witness for C9: the dragging message is retried to exhaustion, another
error is terminal at once, a success is immediate. -/
theorem safe_retry_bounded_witness :
    safeTabMoveGo (fun _ => .err draggingMsg) 0 =
      { attempts := 4, delaysMs := [200, 200, 200], outcome := some draggingMsg } ∧
    safeTabMoveGo (fun _ => .err otherErrMsg) 0 =
      { attempts := 1, delaysMs := [], outcome := some otherErrMsg } ∧
    safeTabMoveGo (fun _ => .ok) 0 =
      { attempts := 1, delaysMs := [], outcome := none } :=
  ⟨(safe_retry_bounded (fun _ => .err draggingMsg) draggingMsg).1
      (fun _ => rfl) (by decide),
   (safe_retry_bounded (fun _ => .err otherErrMsg) otherErrMsg).2.1 0 rfl (by decide),
   (safe_retry_bounded (fun _ => .ok) otherErrMsg).2.2 0 rfl⟩

/-- Counterexample to claim C4 as stated: `addTabToMRU` on a list already
containing the id appends a duplicate instead of leaving the list
unchanged, both at head and at tail position. -/
theorem addTabToMRU_duplicate_appends :
    5 ∈ ([⟨5, 10⟩] : List TabMRUEntry).map (·.tabId) ∧
    (addTabToMRU [⟨5, 10⟩] 5 false 99).1 ≠ [⟨5, 10⟩] ∧
    (addTabToMRU [⟨5, 10⟩] 5 true 99).1 ≠ [⟨5, 10⟩] := by
  decide

/-- Claim C4 amended: the duplicate guard lives in the new-tab handler, not
in the insert — when the created tab's id is already tracked in its
window's MRU list, `handleNewTab` returns the state unchanged and issues
no insert, focus or activation (at most the relocation move). -/
theorem handleNewTab_duplicate_noop (st : TMState) (settings : Settings)
    (ws : List HostWindow) (windowId tabId : Nat) (tracker : TabTracker)
    (hfind : getWindowTracker st.trackers windowId = some tracker)
    (hwid : windowId ≠ 0)
    (hmem : tabId ∈ trackedIds tracker) :
    (handleNewTab st settings ws windowId tabId).1 = st ∧
    activations (handleNewTab st settings ws windowId tabId).2 = [] := by
  have hw : (windowId == 0) = false := by simpa using hwid
  simp only [handleNewTab, hw, if_false, hfind]
  by_cases hz : tabId = 0
  · subst hz
    simp only [handleNewTabCore, beq_self_eq_true, if_true]
    constructor
    · rfl
    · simp [activations]
  · have hzb : (tabId == 0) = false := by simpa using hz
    have hsome : (findTabInMRU tracker.tabarr tabId).isSome :=
      (findTabInMRU_isSome_iff tracker.tabarr tabId).2 hmem
    obtain ⟨loc, hloc⟩ := Option.isSome_iff_exists.1 hsome
    simp only [handleNewTabCore, hzb, if_false, hloc]
    constructor
    · rfl
    · by_cases hr : (settings.reloc && tracker.moveok && tabId != 0) = true
      · simp [hr, activations]
      · simp only [Bool.not_eq_true] at hr
        simp [hr, activations]

/-- Witness for the amended C4: creating tab 3 when window 1 already tracks
it leaves the whole state untouched. -/
theorem handleNewTab_duplicate_noop_witness :
    (handleNewTab closeScenarioStart flipSettings [] 1 3).1 = closeScenarioStart ∧
    activations (handleNewTab closeScenarioStart flipSettings [] 1 3).2 = [] :=
  handleNewTab_duplicate_noop closeScenarioStart flipSettings [] 1 3
    { tabarr := [⟨1, 10⟩, ⟨2, 20⟩, ⟨3, 30⟩], wid := 1, moveok := true }
    (by decide) (by decide) (by decide)

/-- Claim C1 evaluated at its failing input: after closing tab 3 (flip on)
the close handler does issue the corrective activate on tab 2, but the
pending skip record has lost its `expectedTabId` (overwritten by
`setFocus`); the following activation event for a different tab (tab 1)
is merely absorbed — no corrective activate on tab 2 is reissued — and an
activation event for tab 2 itself is absorbed without a touch. -/
theorem close_echo_correction_never_reissued :
    activations (handleTabClose closeScenarioStart flipSettings 3).2 = [2] ∧
    closeScenarioAfter.skip =
      some { reason := .closeTab, expectedTabId := none } ∧
    (handleTabActivation closeScenarioAfter [] 1 1).2 = [] ∧
    (handleTabActivation closeScenarioAfter [] 1 1).1 =
      { closeScenarioAfter with skip := none } ∧
    (handleTabActivation closeScenarioAfter [] 1 2).2 = [] ∧
    (handleTabActivation closeScenarioAfter [] 1 2).1 =
      { closeScenarioAfter with skip := none } := by
  decide

/-- Claim C3 evaluated at its failing input: window 1 tracks tab 5 (a
reachable state, built by `addWindow`); an attach event for tab 5 into
window 1 duplicates the id in the MRU array, and the tracker then fails
the manager's own `validateTracking` duplicate check. -/
theorem attach_duplicates_tracked_tab :
    attachScenarioTrackers.map trackedIds = [[5]] ∧
    validateTracking attachScenarioTrackers = true ∧
    attachScenarioAfter.trackers.map trackedIds = [[5, 5]] ∧
    validateTracking attachScenarioAfter.trackers = false := by
  decide

/-- Claim C5 evaluated at its failing input: a restored snapshot whose
window/tab id sets agree exactly with the live host snapshot is
nevertheless rejected by `validateRestoredState` (its membership test
compares `TabMRUEntry` objects against numeric ids under strict equality,
which never holds), so initialization discards it and rebuilds fresh
state. -/
theorem validateRestoredState_rejects_agreeing_snapshot :
    specSetsAgree liveWindows restoredAgreeing = true ∧
    validateRestoredState liveWindows restoredAgreeing = false ∧
    (initializeTrackingChoice restoredAgreeing liveWindows 1000).1 ≠ restoredAgreeing ∧
    (initializeTrackingChoice restoredAgreeing liveWindows 1000).1 =
      (setTracking liveWindows 1000).1 := by
  decide

lemma sortDesc_perm (l : List TabMRUEntry) : List.Perm (sortDesc l) l :=
  List.perm_insertionSort _ l

lemma findTabAux_found (trs : List TabTracker) (tid : Nat) :
    ∀ k j t loc, findTabAux trs tid k = some (j, t, loc) →
      findTabInMRU t.tabarr tid = some loc := by
  induction trs with
  | nil =>
      intro k j t loc h
      simp [findTabAux] at h
  | cons tr rest ih =>
      intro k j t loc h
      simp only [findTabAux] at h
      cases hf : findTabInMRU tr.tabarr tid with
      | some l =>
          rw [hf] at h
          simp only [Option.some.injEq, Prod.mk.injEq] at h
          obtain ⟨-, ht, hl⟩ := h
          subst ht
          subst hl
          exact hf
      | none =>
          rw [hf] at h
          exact ih (k + 1) j t loc h

lemma eraseIdx_eq_removeTab (arr : List TabMRUEntry) (tid : Nat) :
    ∀ loc, findTabInMRU arr tid = some loc →
      arr.eraseIdx loc = removeTabFromMRU arr tid := by
  induction arr with
  | nil =>
      intro loc h
      simp [findTabInMRU] at h
  | cons e rest ih =>
      intro loc h
      by_cases hb : e.tabId = tid
      · have hbt : (e.tabId == tid) = true := by simpa using hb
        simp only [findTabInMRU, hbt, if_true, Option.some.injEq] at h
        subst h
        simp [List.eraseIdx, removeTabFromMRU, hbt]
      · have hbf : (e.tabId == tid) = false := by simpa using hb
        simp only [findTabInMRU, hbf, Bool.false_eq_true, if_false,
          Option.map_eq_some'] at h
        obtain ⟨l, hl, hloc⟩ := h
        subst hloc
        simp only [List.eraseIdx, removeTabFromMRU, hbf, Bool.false_eq_true,
          if_false, List.cons.injEq, true_and]
        exact ih l hl

lemma getMostRecentTabExcluding_isSome (arr : List TabMRUEntry) (tid : Nat)
    (hmem : tid ∈ arr.map (·.tabId)) (hlen : 1 < arr.length)
    (hnd : (arr.map (·.tabId)).Nodup) :
    ∃ n, getMostRecentTabExcluding arr tid = some n := by
  have hne : arr.filter (fun e => e.tabId != tid) ≠ [] := by
    intro hnil
    have hall : ∀ e ∈ arr, e.tabId = tid := by
      intro e he
      have hni := List.filter_eq_nil_iff.1 hnil e he
      simpa using hni
    match arr, hlen, hnd with
    | a :: b :: rest, _, hnd2 =>
      have ha := hall a (by simp)
      have hb := hall b (by simp)
      simp [ha, hb] at hnd2
  simp only [getMostRecentTabExcluding]
  cases hs : sortDesc (arr.filter fun e => e.tabId != tid) with
  | nil =>
      exfalso
      have hlen0 := congrArg List.length hs
      rw [sortDesc, List.length_insertionSort] at hlen0
      exact hne (List.length_eq_zero.1 (by simpa using hlen0))
  | cons e rest2 =>
      exact ⟨e.tabId, rfl⟩

lemma getMostRecentTabExcluding_mem (arr : List TabMRUEntry) (tid n : Nat)
    (h : getMostRecentTabExcluding arr tid = some n) :
    n ∈ arr.map (·.tabId) := by
  simp only [getMostRecentTabExcluding] at h
  cases hs : sortDesc (arr.filter fun e => e.tabId != tid) with
  | nil =>
      rw [hs] at h
      exact Option.noConfusion h
  | cons e rest =>
      rw [hs] at h
      simp only [Option.some.injEq] at h
      have he : e ∈ sortDesc (arr.filter fun x => x.tabId != tid) := by
        rw [hs]
        exact List.mem_cons_self e rest
      have he2 : e ∈ arr.filter fun x => x.tabId != tid :=
        (sortDesc_perm _).mem_iff.1 he
      have he3 : e ∈ arr := List.mem_of_mem_filter he2
      exact List.mem_map.2 ⟨e, he3, h⟩

/-- Claim C2 — close-handler behaviour: locating the closed tab (with
truthy tracked ids, as the host guarantees), with flip on and the
pre-removal list holding at least 2 entries, the handler computes
`getMostRecentTabExcluding` on the pre-removal array, passes the source's
`if (nextTabId)` truthiness guard, records SkipInfo{closeTab,
expectedItemId} for it, issues one corrective activate on it, and removes
the closed entry; with flip off or fewer than 2 entries, no corrective
activate is issued, the skip state is untouched, and the closed entry is
still removed. -/
theorem handleTabClose_spec (st : TMState) (settings : Settings) (tabId : Nat)
    (k : Nat) (tracker : TabTracker) (tabloc : Nat)
    (hfind : findTabAux st.trackers tabId 0 = some (k, tracker, tabloc))
    (hnd : (trackedIds tracker).Nodup)
    (hz : ∀ i ∈ trackedIds tracker, i ≠ 0) :
    (handleTabClose st settings tabId).1.trackers =
      replaceTrackerAt st.trackers k
        { tracker with tabarr := removeTabFromMRU tracker.tabarr tabId } ∧
    (1 < tracker.tabarr.length ∧ settings.flip = true →
      ∃ next, getMostRecentTabExcluding tracker.tabarr tabId = some next ∧
        next ≠ 0 ∧
        (handleTabClose st settings tabId).2 =
          [Action.skipWrite { reason := .closeTab, expectedTabId := some next },
           Action.skipWrite { reason := .closeTab, expectedTabId := none },
           Action.activate next] ∧
        (handleTabClose st settings tabId).1.skip =
          some { reason := .closeTab, expectedTabId := none }) ∧
    (¬(1 < tracker.tabarr.length ∧ settings.flip = true) →
      (handleTabClose st settings tabId).2 = [] ∧
      (handleTabClose st settings tabId).1.skip = st.skip) := by
  have hloc := findTabAux_found st.trackers tabId 0 k tracker tabloc hfind
  have hmem : tabId ∈ tracker.tabarr.map (·.tabId) := by
    rw [← findTabInMRU_isSome_iff]
    rw [hloc]
    rfl
  have herase := eraseIdx_eq_removeTab tracker.tabarr tabId tabloc hloc
  refine ⟨?_, ?_, ?_⟩
  · simp only [handleTabClose, hfind, herase]
  · rintro ⟨hlen, hflip⟩
    obtain ⟨next, hnext⟩ :=
      getMostRecentTabExcluding_isSome tracker.tabarr tabId hmem hlen hnd
    have hnz : next ≠ 0 :=
      hz next (getMostRecentTabExcluding_mem tracker.tabarr tabId next hnext)
    have hbnz : (next != 0) = true := by simpa using hnz
    have hc : (decide (1 < tracker.tabarr.length) && settings.flip) = true := by
      simp [hlen, hflip]
    refine ⟨next, hnext, hnz, ?_, ?_⟩
    · simp only [handleTabClose, hfind, gt_iff_lt, hc, if_true, hnext, hbnz,
        setFocus]
    · simp only [handleTabClose, hfind, gt_iff_lt, hc, if_true, hnext, hbnz,
        setFocus]
  · intro hneg
    have hc : (decide (1 < tracker.tabarr.length) && settings.flip) = false := by
      rcases not_and_or.1 hneg with h1 | h2
      · simp [h1]
      · simp [Bool.eq_false_iff.2 h2]
    constructor
    · simp only [handleTabClose, hfind, gt_iff_lt, hc, Bool.false_eq_true, if_false]
    · simp only [handleTabClose, hfind, gt_iff_lt, hc, Bool.false_eq_true, if_false]

/-- Witness for C2 at the concrete close scenario (close tab 3, flip on):
the corrective target is tab 2 and the trace and removal are as stated. -/
theorem handleTabClose_spec_witness :
    (handleTabClose closeScenarioStart flipSettings 3).2 =
      [Action.skipWrite { reason := .closeTab, expectedTabId := some 2 },
       Action.skipWrite { reason := .closeTab, expectedTabId := none },
       Action.activate 2] ∧
    (handleTabClose closeScenarioStart flipSettings 3).1.trackers =
      replaceTrackerAt closeScenarioStart.trackers 0
        { tabarr := removeTabFromMRU [⟨1, 10⟩, ⟨2, 20⟩, ⟨3, 30⟩] 3,
          wid := 1, moveok := true } := by
  have h := handleTabClose_spec closeScenarioStart flipSettings 3 0
    { tabarr := [⟨1, 10⟩, ⟨2, 20⟩, ⟨3, 30⟩], wid := 1, moveok := true } 2
    (by decide) (by decide) (by decide)
  obtain ⟨next, hnext, -, hacts, -⟩ := h.2.1 ⟨by decide, rfl⟩
  have h2 : next = 2 := by
    have hv : getMostRecentTabExcluding
        [⟨1, 10⟩, ⟨2, 20⟩, ⟨3, 30⟩] 3 = some 2 := by decide
    rw [hv] at hnext
    exact (Option.some.injEq _ _ ▸ hnext).symm
  subst h2
  exact ⟨hacts, h.1⟩

lemma addWindowScan_spec (tabs : List HostTab) :
    ∀ c sel,
      c ≤ (addWindowScan tabs c sel).clock ∧
      (∀ e ∈ (addWindowScan tabs c sel).arr,
        c ≤ e.order ∧ e.order < (addWindowScan tabs c sel).clock) ∧
      (addWindowScan tabs c sel).arr.map (·.tabId) =
        (tabs.filter (fun t => t.id != 0 && !t.active)).map (·.id) ∧
      (addWindowScan tabs c sel).sel = tabs.foldl selFold sel := by
  induction tabs with
  | nil =>
      intro c sel
      refine ⟨le_refl c, ?_, rfl, rfl⟩
      intro e he
      simp [addWindowScan] at he
  | cons t ts ih =>
      intro c sel
      by_cases h0 : t.id = 0
      · have hb : (t.id == 0) = true := by simpa using h0
        have hf : (t.id != 0 && !t.active) = false := by simp [h0]
        have hg : (t.id != 0 && t.active) = false := by simp [h0]
        have hscan : addWindowScan (t :: ts) c sel = addWindowScan ts c sel := by
          simp [addWindowScan, hb]
        have hstep : selFold sel t = sel := by simp [selFold, hg]
        obtain ⟨i1, i2, i3, i4⟩ := ih c sel
        refine ⟨?_, ?_, ?_, ?_⟩
        · rw [hscan]; exact i1
        · rw [hscan]; exact i2
        · rw [hscan, i3, List.filter_cons]
          simp [hf]
        · rw [hscan, i4, List.foldl_cons, hstep]
      · have hb : (t.id == 0) = false := by simpa using h0
        by_cases ha : t.active = true
        · have hf : (t.id != 0 && !t.active) = false := by simp [ha]
          have hg : (t.id != 0 && t.active) = true := by simp [h0, ha]
          have hscan : addWindowScan (t :: ts) c sel = addWindowScan ts c (some t.id) := by
            simp [addWindowScan, hb, ha]
          have hstep : selFold sel t = some t.id := by simp [selFold, hg]
          obtain ⟨i1, i2, i3, i4⟩ := ih c (some t.id)
          refine ⟨?_, ?_, ?_, ?_⟩
          · rw [hscan]; exact i1
          · rw [hscan]; exact i2
          · rw [hscan, i3, List.filter_cons]
            simp [hf]
          · rw [hscan, i4, List.foldl_cons, hstep]
        · have haf : t.active = false := Bool.eq_false_iff.2 ha
          have hf : (t.id != 0 && !t.active) = true := by simp [h0, haf]
          have hg : (t.id != 0 && t.active) = false := by simp [haf]
          have hscan : addWindowScan (t :: ts) c sel =
              { arr := { tabId := t.id, order := c } :: (addWindowScan ts (c + 1) sel).arr,
                clock := (addWindowScan ts (c + 1) sel).clock,
                sel := (addWindowScan ts (c + 1) sel).sel } := by
            simp [addWindowScan, hb, haf]
          have hstep : selFold sel t = sel := by simp [selFold, hg]
          obtain ⟨i1, i2, i3, i4⟩ := ih (c + 1) sel
          refine ⟨?_, ?_, ?_, ?_⟩
          · rw [hscan]
            exact le_trans (Nat.le_succ c) i1
          · rw [hscan]
            intro e he
            rcases List.mem_cons.1 he with he1 | he2
            · subst he1
              exact ⟨le_refl c, lt_of_lt_of_le (Nat.lt_succ_self c) i1⟩
            · obtain ⟨j1, j2⟩ := i2 e he2
              exact ⟨le_trans (Nat.le_succ c) j1, j2⟩
          · rw [hscan, List.filter_cons]
            simp only [hf, if_true, List.map_cons]
            rw [i3]
          · rw [hscan, List.foldl_cons, hstep]
            exact i4

lemma foldl_sel_no_active (tabs : List HostTab)
    (h : ∀ t ∈ tabs, t.active = false) :
    ∀ acc, tabs.foldl selFold acc = acc := by
  induction tabs with
  | nil => intro acc; rfl
  | cons t ts ih =>
      intro acc
      have ht := h t (by simp)
      have hg : (t.id != 0 && t.active) = false := by simp [ht]
      simp only [List.foldl_cons, selFold, hg, Bool.false_eq_true, if_false]
      exact ih (fun x hx => h x (List.mem_cons_of_mem t hx)) acc

lemma foldl_sel_unique (tabs : List HostTab) (tstar : HostTab)
    (hmem : tstar ∈ tabs) (hz : tstar.id ≠ 0) (hact : tstar.active = true)
    (huniq : ∀ t ∈ tabs, t.active = true → t = tstar) :
    ∀ acc, tabs.foldl selFold acc = some tstar.id := by
  induction tabs with
  | nil => simp at hmem
  | cons t ts ih =>
      intro acc
      by_cases hts : tstar ∈ ts
      · have huniq2 : ∀ x ∈ ts, x.active = true → x = tstar :=
          fun x hx => huniq x (List.mem_cons_of_mem t hx)
        simp only [List.foldl_cons]
        exact ih hts huniq2 _
      · have hteq : t = tstar := by
          rcases List.mem_cons.1 hmem with h1 | h2
          · exact h1.symm
          · exact absurd h2 hts
        subst hteq
        have hg : (t.id != 0 && t.active) = true := by simp [hz, hact]
        simp only [List.foldl_cons, selFold, hg, if_true]
        apply foldl_sel_no_active
        intro x hx
        by_cases hxa : x.active = true
        · have hxt : x = t := huniq x (List.mem_cons_of_mem t hx) hxa
          exact absurd (hxt ▸ hx) hts
        · exact Bool.eq_false_iff.2 hxa

lemma contains_iff_mem (l : List Nat) (a : Nat) : l.contains a = true ↔ a ∈ l := by
  simp [List.contains, List.elem_iff]

lemma getWindowTracker_wid (trs : List TabTracker) (wid : Nat) (t : TabTracker)
    (h : getWindowTracker trs wid = some t) : t.wid = wid := by
  have := List.find?_some h
  simpa using this

lemma getWindowTracker_append_ne (trs : List TabTracker) (tn : TabTracker)
    (wid : Nat) (h : tn.wid ≠ wid) :
    getWindowTracker (trs ++ [tn]) wid = getWindowTracker trs wid := by
  induction trs with
  | nil =>
      have hb : (tn.wid == wid) = false := by simpa using h
      simp [getWindowTracker, List.find?, hb]
  | cons t rest ih =>
      by_cases ht : t.wid = wid
      · simp [getWindowTracker, List.find?, ht]
      · have hb : (t.wid == wid) = false := by simpa using ht
        simp only [getWindowTracker, List.cons_append, List.find?, hb] at ih ⊢
        exact ih

lemma getWindowTracker_append_none (trs : List TabTracker) (tn : TabTracker)
    (wid : Nat) (h : getWindowTracker trs wid = none) (hw : tn.wid = wid) :
    getWindowTracker (trs ++ [tn]) wid = some tn := by
  induction trs with
  | nil => simp [getWindowTracker, List.find?, hw]
  | cons t rest ih =>
      by_cases ht : t.wid = wid
      · simp [getWindowTracker, List.find?, ht] at h
      · have hb : (t.wid == wid) = false := by simpa using ht
        simp only [getWindowTracker, List.find?, hb] at h ⊢
        exact ih h

lemma getWindowTracker_update_ne (trs : List TabTracker) (wid' : Nat)
    (t' : TabTracker) (wid : Nat) (h1 : t'.wid ≠ wid) (h2 : wid' ≠ wid) :
    getWindowTracker (updateTrackerByWid trs wid' t') wid =
      getWindowTracker trs wid := by
  induction trs with
  | nil => rfl
  | cons t rest ih =>
      by_cases ht : t.wid = wid'
      · have hb : (t.wid == wid') = true := by simpa using ht
        have hbw : (t.wid == wid) = false := by
          simp only [beq_eq_false_iff_ne, ne_eq]
          rw [ht]
          exact h2
        have hbw' : (t'.wid == wid) = false := by simpa using h1
        simp [updateTrackerByWid, getWindowTracker, List.find?, hb, hbw, hbw']
      · have hb : (t.wid == wid') = false := by simpa using ht
        simp only [updateTrackerByWid, hb, Bool.false_eq_true, if_false,
          getWindowTracker, List.find?] at ih ⊢
        cases hbw : (t.wid == wid) with
        | true => rfl
        | false => exact ih

lemma getWindowTracker_update_self (trs : List TabTracker) (wid : Nat)
    (t : TabTracker) (h : getWindowTracker trs wid = some t) :
    updateTrackerByWid trs wid t = trs := by
  induction trs with
  | nil => rfl
  | cons x rest ih =>
      by_cases hx : x.wid = wid
      · have hb : (x.wid == wid) = true := by simpa using hx
        simp only [getWindowTracker, List.find?, hb] at h
        simp only [updateTrackerByWid, hb, if_true]
        simp only [Option.some.injEq] at h
        rw [h]
      · have hb : (x.wid == wid) = false := by simpa using hx
        simp only [getWindowTracker, List.find?, hb] at h
        simp only [updateTrackerByWid, hb, Bool.false_eq_true, if_false]
        rw [ih h]

lemma getWindowTracker_update_found (trs : List TabTracker) (wid : Nat)
    (told t' : TabTracker) (h : getWindowTracker trs wid = some told)
    (hw : t'.wid = wid) :
    getWindowTracker (updateTrackerByWid trs wid t') wid = some t' := by
  induction trs with
  | nil => simp [getWindowTracker, List.find?] at h
  | cons x rest ih =>
      by_cases hx : x.wid = wid
      · have hb : (x.wid == wid) = true := by simpa using hx
        have hb' : (t'.wid == wid) = true := by simpa using hw
        simp [updateTrackerByWid, getWindowTracker, List.find?, hb, hb']
      · have hb : (x.wid == wid) = false := by simpa using hx
        simp only [getWindowTracker, List.find?, hb] at h
        simp only [updateTrackerByWid, hb, Bool.false_eq_true, if_false,
          getWindowTracker, List.find?]
        exact ih h

lemma mem_updateTrackerByWid (trs : List TabTracker) (wid : Nat)
    (t' x : TabTracker) (h : x ∈ updateTrackerByWid trs wid t') :
    x ∈ trs ∨ x = t' := by
  induction trs with
  | nil => simp [updateTrackerByWid] at h
  | cons t rest ih =>
      by_cases ht : t.wid = wid
      · have hb : (t.wid == wid) = true := by simpa using ht
        simp only [updateTrackerByWid, hb, if_true] at h
        rcases List.mem_cons.1 h with h1 | h2
        · exact Or.inr h1
        · exact Or.inl (List.mem_cons_of_mem t h2)
      · have hb : (t.wid == wid) = false := by simpa using ht
        simp only [updateTrackerByWid, hb, Bool.false_eq_true, if_false] at h
        rcases List.mem_cons.1 h with h1 | h2
        · exact Or.inl (h1 ▸ List.mem_cons_self t rest)
        · rcases ih h2 with h3 | h4
          · exact Or.inl (List.mem_cons_of_mem t h3)
          · exact Or.inr h4

lemma getWindowTracker_filter (trs : List TabTracker) (wid : Nat)
    (q : TabTracker → Bool) (h : ∀ x : TabTracker, x.wid = wid → q x = true) :
    getWindowTracker (trs.filter q) wid = getWindowTracker trs wid := by
  induction trs with
  | nil => rfl
  | cons t rest ih =>
      by_cases ht : t.wid = wid
      · have hb : (t.wid == wid) = true := by simpa using ht
        simp [getWindowTracker, List.filter_cons, h t ht, List.find?, hb]
      · have hb : (t.wid == wid) = false := by simpa using ht
        cases hq : q t with
        | true =>
            simp only [getWindowTracker, List.filter_cons, hq, if_true,
              List.find?, hb] at ih ⊢
            exact ih
        | false =>
            simp only [getWindowTracker, List.filter_cons, hq,
              Bool.false_eq_true, if_false, List.find?, hb] at ih ⊢
            exact ih

lemma any_tabId_iff (arr : List TabMRUEntry) (tid : Nat) :
    arr.any (fun e => e.tabId == tid) = true ↔ tid ∈ arr.map (·.tabId) := by
  simp [List.any_eq_true]

lemma mem_removeTab_iff (arr : List TabMRUEntry) (tid : Nat)
    (hnd : (arr.map (·.tabId)).Nodup) :
    ∀ i, i ∈ (removeTabFromMRU arr tid).map (·.tabId) ↔
      i ∈ arr.map (·.tabId) ∧ i ≠ tid := by
  induction arr with
  | nil =>
      intro i
      simp [removeTabFromMRU]
  | cons e rest ih =>
      intro i
      simp only [List.map_cons, List.nodup_cons] at hnd
      obtain ⟨hnd1, hnd2⟩ := hnd
      by_cases hb : e.tabId = tid
      · have hbt : (e.tabId == tid) = true := by simpa using hb
        simp only [removeTabFromMRU, hbt, if_true, List.map_cons, List.mem_cons]
        constructor
        · intro hi
          refine ⟨Or.inr hi, ?_⟩
          intro hit
          apply hnd1
          rw [hb, ← hit]
          exact hi
        · rintro ⟨h1 | h2, hne⟩
          · exact absurd (h1.trans hb) hne
          · exact h2
      · have hbf : (e.tabId == tid) = false := by simpa using hb
        simp only [removeTabFromMRU, hbf, Bool.false_eq_true, if_false,
          List.map_cons, List.mem_cons, ih hnd2 i]
        constructor
        · rintro (h1 | ⟨h2, hne⟩)
          · exact ⟨Or.inl h1, h1 ▸ hb⟩
          · exact ⟨Or.inr h2, hne⟩
        · rintro ⟨h1 | h2, hne⟩
          · exact Or.inl h1
          · exact Or.inr ⟨h2, hne⟩

lemma nodup_removeTab (arr : List TabMRUEntry) (tid : Nat)
    (hnd : (arr.map (·.tabId)).Nodup) :
    ((removeTabFromMRU arr tid).map (·.tabId)).Nodup := by
  induction arr with
  | nil => simp [removeTabFromMRU]
  | cons e rest ih =>
      simp only [List.map_cons, List.nodup_cons] at hnd
      obtain ⟨hnd1, hnd2⟩ := hnd
      by_cases hb : e.tabId = tid
      · have hbt : (e.tabId == tid) = true := by simpa using hb
        simpa [removeTabFromMRU, hbt] using hnd2
      · have hbf : (e.tabId == tid) = false := by simpa using hb
        simp only [removeTabFromMRU, hbf, Bool.false_eq_true, if_false,
          List.map_cons, List.nodup_cons]
        refine ⟨?_, ih hnd2⟩
        intro hmem
        exact hnd1 ((mem_removeTab_iff rest tid hnd2 e.tabId).1 hmem).1

lemma removeOrphans_spec (orphans : List Nat) :
    ∀ arr ch, (arr.map (·.tabId)).Nodup →
      (((removeOrphans arr orphans ch).1.map (·.tabId)).Nodup ∧
       ∀ i, i ∈ (removeOrphans arr orphans ch).1.map (·.tabId) ↔
         i ∈ arr.map (·.tabId) ∧ i ∉ orphans) := by
  induction orphans with
  | nil =>
      intro arr ch hnd
      exact ⟨hnd, fun i => by simp [removeOrphans]⟩
  | cons tid rest ih =>
      intro arr ch hnd
      cases hany : arr.any (fun e => e.tabId == tid) with
      | true =>
          have hstep : removeOrphans arr (tid :: rest) ch =
              removeOrphans (removeTabFromMRU arr tid) rest (ch + 1) := by
            simp [removeOrphans, hany]
          obtain ⟨jnd, jmem⟩ := ih (removeTabFromMRU arr tid) (ch + 1)
            (nodup_removeTab arr tid hnd)
          rw [hstep]
          refine ⟨jnd, fun i => ?_⟩
          rw [jmem i, mem_removeTab_iff arr tid hnd i]
          simp only [List.mem_cons]
          tauto
      | false =>
          have hstep : removeOrphans arr (tid :: rest) ch =
              removeOrphans arr rest ch := by
            simp [removeOrphans, hany]
          have htid : tid ∉ arr.map (·.tabId) := by
            intro hm
            rw [← any_tabId_iff] at hm
            rw [hany] at hm
            exact Bool.false_ne_true hm
          obtain ⟨jnd, jmem⟩ := ih arr ch hnd
          rw [hstep]
          refine ⟨jnd, fun i => ?_⟩
          rw [jmem i]
          simp only [List.mem_cons]
          constructor
          · rintro ⟨h1, h2⟩
            refine ⟨h1, ?_⟩
            rintro (h3 | h4)
            · exact htid (h3 ▸ h1)
            · exact h2 h4
          · rintro ⟨h1, h2⟩
            exact ⟨h1, fun h3 => h2 (Or.inr h3)⟩

lemma insertMissing_spec (w : HostWindow) (missing : List Nat)
    (hfind : ∀ tid ∈ missing, ∃ t ∈ w.tabs, t.id = tid) :
    ∀ arr c ch,
      (∀ i, i ∈ (insertMissing arr w missing c ch).1.map (·.tabId) ↔
        i ∈ missing ∨ i ∈ arr.map (·.tabId)) ∧
      (missing.Nodup → (arr.map (·.tabId)).Nodup →
        (∀ tid ∈ missing, tid ∉ arr.map (·.tabId)) →
        ((insertMissing arr w missing c ch).1.map (·.tabId)).Nodup) := by
  induction missing with
  | nil =>
      intro arr c ch
      exact ⟨fun i => by simp [insertMissing], fun _ hnd _ => hnd⟩
  | cons tid rest ih =>
      intro arr c ch
      obtain ⟨t, ht, htid⟩ := hfind tid (List.mem_cons_self tid rest)
      cases hf : w.tabs.find? (fun x => x.id == tid) with
      | none =>
          exfalso
          have := List.find?_eq_none.1 hf t ht
          simp [htid] at this
      | some t2 =>
          have hrest : ∀ x ∈ rest, ∃ t ∈ w.tabs, t.id = x :=
            fun x hx => hfind x (List.mem_cons_of_mem tid hx)
          have ihr := ih hrest
          set arr' : List TabMRUEntry :=
            if t2.active then arr ++ [{ tabId := tid, order := c }]
            else { tabId := tid, order := c } :: arr with harr'
          have hstep : insertMissing arr w (tid :: rest) c ch =
              insertMissing arr' w rest (c + 1) (ch + 1) := by
            simp [insertMissing, hf, harr']
          have hmem' : ∀ i, i ∈ arr'.map (·.tabId) ↔
              i = tid ∨ i ∈ arr.map (·.tabId) := by
            intro i
            rw [harr']
            cases ha2 : t2.active with
            | true => simp [or_comm]
            | false => simp
          rw [hstep]
          obtain ⟨imem, ind⟩ := ihr arr' (c + 1) (ch + 1)
          constructor
          · intro i
            rw [imem i, hmem' i]
            simp only [List.mem_cons]
            tauto
          · intro h1 h2 h3
            simp only [List.nodup_cons] at h1
            obtain ⟨h1a, h1b⟩ := h1
            have hnd' : (arr'.map (·.tabId)).Nodup := by
              rw [harr']
              cases ha2 : t2.active with
              | true =>
                  simp only [if_true, List.map_append, List.map_cons, List.map_nil]
                  rw [List.nodup_append]
                  refine ⟨h2, List.nodup_singleton tid, ?_⟩
                  intro a ha hb
                  simp only [List.mem_singleton] at hb
                  exact h3 tid (List.mem_cons_self tid rest) (hb ▸ ha)
              | false =>
                  simp only [Bool.false_eq_true, if_false, List.map_cons,
                    List.nodup_cons]
                  exact ⟨h3 tid (List.mem_cons_self tid rest), h2⟩
            refine ind h1b hnd' ?_
            intro x hx
            rw [hmem' x]
            rintro (h4 | h5)
            · exact h1a (h4 ▸ hx)
            · exact h3 x (List.mem_cons_of_mem tid hx) h5

lemma addWindowTracker_wid (w : HostWindow) (c : Nat) :
    (addWindowTracker w c).1.wid = w.id := by
  simp only [addWindowTracker]
  cases (addWindowScan w.tabs c none).sel <;> rfl

lemma addWindowTracker_synced (w : HostWindow) (c : Nat)
    (hz : ∀ t ∈ w.tabs, t.id ≠ 0)
    (hndw : (windowTabIds w).Nodup)
    (hact : (w.tabs.filter (·.active)).length ≤ 1) :
    syncedWith (addWindowTracker w c).1 w ∧
    (trackedIds (addWindowTracker w c).1).Nodup := by
  obtain ⟨hclock, hbound, hmap, hsel⟩ := addWindowScan_spec w.tabs c none
  cases hfa : w.tabs.filter (·.active) with
  | nil =>
      have hnone : ∀ t ∈ w.tabs, t.active = false := by
        intro t ht
        by_cases ha : t.active = true
        · exfalso
          have hmem : t ∈ w.tabs.filter (·.active) := List.mem_filter.2 ⟨ht, ha⟩
          rw [hfa] at hmem
          simp at hmem
        · exact Bool.eq_false_iff.2 ha
      have hselv : (addWindowScan w.tabs c none).sel = none := by
        rw [hsel]
        exact foldl_sel_no_active w.tabs hnone none
      have htr : (addWindowTracker w c).1 =
          { tabarr := (addWindowScan w.tabs c none).arr,
            wid := w.id, moveok := w.isNormal } := by
        simp [addWindowTracker, hselv]
      have hfe : w.tabs.filter (fun t => t.id != 0 && !t.active) = w.tabs := by
        rw [List.filter_eq_self]
        intro t ht
        simp [hz t ht, hnone t ht]
      rw [htr]
      constructor
      · intro i
        simp only [trackedIds, windowTabIds]
        rw [hmap, hfe]
      · simp only [trackedIds]
        rw [hmap, hfe]
        exact hndw
  | cons tstar rest2 =>
      have hrest : rest2 = [] := by
        rw [hfa] at hact
        cases rest2 with
        | nil => rfl
        | cons a b => simp at hact
      subst hrest
      have hmemf : tstar ∈ w.tabs.filter (·.active) := by
        rw [hfa]
        exact List.mem_cons_self tstar []
      have hmem : tstar ∈ w.tabs := List.mem_of_mem_filter hmemf
      have hactstar : tstar.active = true := by
        simpa using List.of_mem_filter hmemf
      have huniq : ∀ t ∈ w.tabs, t.active = true → t = tstar := by
        intro t ht ha
        have hmt : t ∈ w.tabs.filter (·.active) := List.mem_filter.2 ⟨ht, ha⟩
        rw [hfa] at hmt
        simpa using hmt
      have hzstar : tstar.id ≠ 0 := hz tstar hmem
      have hselv : (addWindowScan w.tabs c none).sel = some tstar.id := by
        rw [hsel]
        exact foldl_sel_unique w.tabs tstar hmem hzstar hactstar huniq none
      have htr : (addWindowTracker w c).1 =
          { tabarr := (addWindowScan w.tabs c none).arr ++
              [{ tabId := tstar.id, order := (addWindowScan w.tabs c none).clock }],
            wid := w.id, moveok := w.isNormal } := by
        simp [addWindowTracker, hselv]
      rw [htr]
      constructor
      · intro i
        simp only [trackedIds, windowTabIds, List.map_append, List.mem_append,
          List.map_cons, List.map_nil, List.mem_singleton]
        constructor
        · intro hi
          rcases hi with hi1 | hi2
          · rw [hmap] at hi1
            obtain ⟨t, ht, hti⟩ := List.mem_map.1 hi1
            exact List.mem_map.2 ⟨t, List.mem_of_mem_filter ht, hti⟩
          · rw [hi2]
            exact List.mem_map.2 ⟨tstar, hmem, rfl⟩
        · intro hi
          obtain ⟨t, ht, hti⟩ := List.mem_map.1 hi
          by_cases hta : t.active = true
          · right
            rw [← hti, huniq t ht hta]
          · left
            rw [hmap]
            refine List.mem_map.2 ⟨t, ?_, hti⟩
            refine List.mem_filter.2 ⟨ht, ?_⟩
            have hz2 : t.id ≠ 0 := hz t ht
            simp [hz2, Bool.eq_false_iff.2 hta]
      · simp only [trackedIds, List.map_append, List.map_cons, List.map_nil]
        rw [List.nodup_append]
        refine ⟨?_, List.nodup_singleton _, ?_⟩
        · rw [hmap]
          have hndw' : (w.tabs.map (·.id)).Nodup := hndw
          exact ((List.filter_sublist w.tabs).map (·.id)).nodup hndw'
        · intro a ha hb
          simp only [List.mem_singleton] at hb
          subst hb
          rw [hmap] at ha
          obtain ⟨t, htf, hti⟩ := List.mem_map.1 ha
          have ht : t ∈ w.tabs := List.mem_of_mem_filter htf
          have hteq : t = tstar :=
            List.inj_on_of_nodup_map hndw ht hmem hti
          have htna : t.active = false := by
            have := List.of_mem_filter htf
            simp only [Bool.and_eq_true, bne_iff_ne, ne_eq,
              Bool.not_eq_true'] at this
            exact this.2
          rw [hteq] at htna
          rw [hactstar] at htna
          exact Bool.noConfusion htna

lemma syncArr_spec (w : HostWindow) (tracker : TabTracker) (c ch : Nat)
    (missing orphaned : List Nat)
    (hm : missing = (windowTabIds w).filter
      (fun i => !((trackedIds tracker).contains i)))
    (ho : orphaned = (trackedIds tracker).filter
      (fun i => !((windowTabIds w).contains i)))
    (hndw : (windowTabIds w).Nodup) (hndt : (trackedIds tracker).Nodup) :
    (∀ i, i ∈ (removeOrphans (insertMissing tracker.tabarr w missing c ch).1
        orphaned (insertMissing tracker.tabarr w missing c ch).2.2).1.map (·.tabId) ↔
      i ∈ windowTabIds w) ∧
    ((removeOrphans (insertMissing tracker.tabarr w missing c ch).1
        orphaned (insertMissing tracker.tabarr w missing c ch).2.2).1.map (·.tabId)).Nodup := by
  have hfindm : ∀ tid ∈ missing, ∃ t ∈ w.tabs, t.id = tid := by
    intro tid htid
    rw [hm] at htid
    have h1 := List.mem_of_mem_filter htid
    obtain ⟨t, ht, hti⟩ := List.mem_map.1 h1
    exact ⟨t, ht, hti⟩
  have hndm : missing.Nodup := by
    rw [hm]
    exact hndw.filter _
  have hdisj : ∀ tid ∈ missing, tid ∉ trackedIds tracker := by
    intro tid htid hmem
    rw [hm] at htid
    have h2 := List.of_mem_filter htid
    simp only [Bool.not_eq_true'] at h2
    have h3 := (contains_iff_mem _ _).2 hmem
    rw [h2] at h3
    exact Bool.noConfusion h3
  have hndt' : (tracker.tabarr.map (·.tabId)).Nodup := hndt
  obtain ⟨imem, ind⟩ := insertMissing_spec w missing hfindm tracker.tabarr c ch
  have hndarr1 := ind hndm hndt' hdisj
  obtain ⟨rnd, rmem⟩ := removeOrphans_spec orphaned
    (insertMissing tracker.tabarr w missing c ch).1
    (insertMissing tracker.tabarr w missing c ch).2.2 hndarr1
  refine ⟨?_, rnd⟩
  intro i
  rw [rmem i, imem i]
  constructor
  · rintro ⟨h1 | h2, h3⟩
    · rw [hm] at h1
      exact List.mem_of_mem_filter h1
    · by_contra h4
      apply h3
      rw [ho]
      refine List.mem_filter.2 ⟨h2, ?_⟩
      simp only [Bool.not_eq_true']
      cases hc : (windowTabIds w).contains i with
      | false => rfl
      | true => exact absurd ((contains_iff_mem _ _).1 hc) h4
  · intro hi
    constructor
    · by_cases h5 : i ∈ trackedIds tracker
      · exact Or.inr h5
      · left
        rw [hm]
        refine List.mem_filter.2 ⟨hi, ?_⟩
        simp only [Bool.not_eq_true']
        cases hc : (trackedIds tracker).contains i with
        | false => rfl
        | true => exact absurd ((contains_iff_mem _ _).1 hc) h5
    · intro h6
      rw [ho] at h6
      have h7 := List.of_mem_filter h6
      simp only [Bool.not_eq_true'] at h7
      have h8 := (contains_iff_mem (windowTabIds w) i).2 hi
      rw [h7] at h8
      exact Bool.noConfusion h8

lemma reconcileOneWindow_establishes (trs : List TabTracker) (w : HostWindow)
    (c ch : Nat) (hw0 : w.id ≠ 0) (hz : ∀ t ∈ w.tabs, t.id ≠ 0)
    (hndw : (windowTabIds w).Nodup)
    (hact : (w.tabs.filter (·.active)).length ≤ 1)
    (hN : ∀ t ∈ trs, (trackedIds t).Nodup) :
    ∃ T, getWindowTracker (reconcileOneWindow trs w c ch).trackers w.id = some T ∧
      syncedWith T w ∧ (trackedIds T).Nodup := by
  have hb0 : (w.id == 0) = false := by simpa using hw0
  cases hf : getWindowTracker trs w.id with
  | none =>
      simp only [reconcileOneWindow, hb0, Bool.false_eq_true, if_false, hf, addWindow]
      obtain ⟨hs, hn⟩ := addWindowTracker_synced w c hz hndw hact
      exact ⟨(addWindowTracker w c).1,
        getWindowTracker_append_none trs _ w.id hf (addWindowTracker_wid w c), hs, hn⟩
  | some tracker =>
      have hndt := hN tracker (List.mem_of_find?_eq_some hf)
      simp only [reconcileOneWindow, hb0, Bool.false_eq_true, if_false, hf]
      obtain ⟨hs, hn⟩ := syncArr_spec w tracker c ch _ _ rfl rfl hndw hndt
      refine ⟨_, getWindowTracker_update_found trs w.id tracker _ hf ?_, ?_, ?_⟩
      · exact getWindowTracker_wid trs w.id tracker hf
      · intro i
        exact hs i
      · exact hn

lemma reconcileOneWindow_nodup_all (trs : List TabTracker) (w : HostWindow)
    (c ch : Nat) (hw0 : w.id ≠ 0) (hz : ∀ t ∈ w.tabs, t.id ≠ 0)
    (hndw : (windowTabIds w).Nodup)
    (hact : (w.tabs.filter (·.active)).length ≤ 1)
    (hN : ∀ t ∈ trs, (trackedIds t).Nodup) :
    ∀ t ∈ (reconcileOneWindow trs w c ch).trackers, (trackedIds t).Nodup := by
  have hb0 : (w.id == 0) = false := by simpa using hw0
  cases hf : getWindowTracker trs w.id with
  | none =>
      simp only [reconcileOneWindow, hb0, Bool.false_eq_true, if_false, hf, addWindow]
      intro t ht
      rcases List.mem_append.1 ht with h1 | h2
      · exact hN t h1
      · have h3 : t = (addWindowTracker w c).1 := by simpa using h2
        rw [h3]
        exact (addWindowTracker_synced w c hz hndw hact).2
  | some tracker =>
      have hndt := hN tracker (List.mem_of_find?_eq_some hf)
      simp only [reconcileOneWindow, hb0, Bool.false_eq_true, if_false, hf]
      intro t ht
      rcases mem_updateTrackerByWid _ _ _ _ ht with h1 | h2
      · exact hN t h1
      · rw [h2]
        exact (syncArr_spec w tracker c ch _ _ rfl rfl hndw hndt).2

lemma reconcileOneWindow_preserve (trs : List TabTracker) (w : HostWindow)
    (c ch wid : Nat) (hne : w.id ≠ wid) :
    getWindowTracker (reconcileOneWindow trs w c ch).trackers wid =
      getWindowTracker trs wid := by
  by_cases hw0 : w.id = 0
  · have hb0 : (w.id == 0) = true := by simpa using hw0
    simp [reconcileOneWindow, hb0]
  · have hb0 : (w.id == 0) = false := by simpa using hw0
    cases hf : getWindowTracker trs w.id with
    | none =>
        simp only [reconcileOneWindow, hb0, Bool.false_eq_true, if_false, hf, addWindow]
        refine getWindowTracker_append_ne trs _ wid ?_
        rw [addWindowTracker_wid]
        exact hne
    | some tracker =>
        simp only [reconcileOneWindow, hb0, Bool.false_eq_true, if_false, hf]
        apply getWindowTracker_update_ne
        · show tracker.wid ≠ wid
          rw [getWindowTracker_wid trs w.id tracker hf]
          exact hne
        · exact hne

lemma reconcileOneWindow_id (trs : List TabTracker) (w : HostWindow)
    (c ch : Nat) (T : TabTracker) (hw0 : w.id ≠ 0)
    (hfind : getWindowTracker trs w.id = some T) (hsync : syncedWith T w) :
    reconcileOneWindow trs w c ch =
      { trackers := trs, clock := c, changes := ch } := by
  have hb0 : (w.id == 0) = false := by simpa using hw0
  have hmiss : (windowTabIds w).filter
      (fun i => !((trackedIds T).contains i)) = [] := by
    rw [List.filter_eq_nil_iff]
    intro i hi
    have h1 : i ∈ trackedIds T := (hsync i).2 hi
    have h2 := (contains_iff_mem _ _).2 h1
    intro hcontra
    rw [h2] at hcontra
    exact Bool.noConfusion hcontra
  have horph : (trackedIds T).filter
      (fun i => !((windowTabIds w).contains i)) = [] := by
    rw [List.filter_eq_nil_iff]
    intro i hi
    have h1 : i ∈ windowTabIds w := (hsync i).1 hi
    have h2 := (contains_iff_mem _ _).2 h1
    intro hcontra
    rw [h2] at hcontra
    exact Bool.noConfusion hcontra
  simp only [reconcileOneWindow, hb0, Bool.false_eq_true, if_false, hfind,
    hmiss, horph, insertMissing, removeOrphans]
  rw [show { T with tabarr := T.tabarr } = T from rfl]
  rw [getWindowTracker_update_self trs w.id T hfind]

lemma reconcileLoop_preserve (ws : List HostWindow) :
    ∀ trs c ch wid, (∀ w ∈ ws, w.id ≠ wid) →
      getWindowTracker (reconcileLoop trs ws c ch).trackers wid =
        getWindowTracker trs wid := by
  induction ws with
  | nil => intro trs c ch wid _; rfl
  | cons w rest ih =>
      intro trs c ch wid h
      simp only [reconcileLoop]
      rw [ih _ _ _ _ (fun w' hw' => h w' (List.mem_cons_of_mem w hw'))]
      exact reconcileOneWindow_preserve trs w c ch wid (h w (List.mem_cons_self w rest))

lemma reconcileLoop_nodup (ws : List HostWindow) :
    ∀ trs c ch,
      (∀ w ∈ ws, w.id ≠ 0 ∧ (∀ t ∈ w.tabs, t.id ≠ 0) ∧ (windowTabIds w).Nodup ∧
        (w.tabs.filter (·.active)).length ≤ 1) →
      (∀ t ∈ trs, (trackedIds t).Nodup) →
      ∀ t ∈ (reconcileLoop trs ws c ch).trackers, (trackedIds t).Nodup := by
  induction ws with
  | nil => intro trs c ch _ hN; exact hN
  | cons w rest ih =>
      intro trs c ch hws hN
      obtain ⟨h0a, h0b, h0c, h0d⟩ := hws w (List.mem_cons_self w rest)
      simp only [reconcileLoop]
      exact ih _ _ _ (fun w' hw' => hws w' (List.mem_cons_of_mem w hw'))
        (reconcileOneWindow_nodup_all trs w c ch h0a h0b h0c h0d hN)

lemma reconcileLoop_sync (ws : List HostWindow) :
    (ws.map (·.id)).Nodup →
    (∀ w ∈ ws, w.id ≠ 0 ∧ (∀ t ∈ w.tabs, t.id ≠ 0) ∧ (windowTabIds w).Nodup ∧
      (w.tabs.filter (·.active)).length ≤ 1) →
    ∀ trs c ch, (∀ t ∈ trs, (trackedIds t).Nodup) →
      ∀ w ∈ ws, ∃ T,
        getWindowTracker (reconcileLoop trs ws c ch).trackers w.id = some T ∧
          syncedWith T w := by
  induction ws with
  | nil =>
      intro _ _ trs c ch _ w hw
      simp at hw
  | cons w0 rest ih =>
      intro hwids hws trs c ch hN w hw
      obtain ⟨h0a, h0b, h0c, h0d⟩ := hws w0 (List.mem_cons_self w0 rest)
      simp only [reconcileLoop]
      rcases List.mem_cons.1 hw with heq | hwrest
      · subst heq
        obtain ⟨T, hT, hs, -⟩ :=
          reconcileOneWindow_establishes trs w c ch h0a h0b h0c h0d hN
        have hne : ∀ w' ∈ rest, w'.id ≠ w.id := by
          simp only [List.map_cons, List.nodup_cons] at hwids
          intro w' hw' heq2
          exact hwids.1 (heq2 ▸ List.mem_map.2 ⟨w', hw', rfl⟩)
        rw [reconcileLoop_preserve rest _ _ _ _ hne]
        exact ⟨T, hT, hs⟩
      · exact ih (by simpa using hwids.of_cons)
          (fun w' hw' => hws w' (List.mem_cons_of_mem w0 hw')) _ _ _
          (reconcileOneWindow_nodup_all trs w0 c ch h0a h0b h0c h0d hN) w hwrest

lemma reconcileLoop_id (ws : List HostWindow) :
    ∀ trs c ch, (∀ w ∈ ws, w.id ≠ 0) →
      (∀ w ∈ ws, ∃ T, getWindowTracker trs w.id = some T ∧ syncedWith T w) →
      reconcileLoop trs ws c ch = { trackers := trs, clock := c, changes := ch } := by
  induction ws with
  | nil => intro trs c ch _ _; rfl
  | cons w rest ih =>
      intro trs c ch h0 hsync
      obtain ⟨T, hT, hs⟩ := hsync w (List.mem_cons_self w rest)
      simp only [reconcileLoop,
        reconcileOneWindow_id trs w c ch T (h0 w (List.mem_cons_self w rest)) hT hs]
      exact ih _ _ _ (fun w' hw' => h0 w' (List.mem_cons_of_mem w hw'))
        (fun w' hw' => hsync w' (List.mem_cons_of_mem w hw'))

/-- Claim C6 — reconciliation idempotence: with a well-formed host snapshot
(truthy distinct window ids, per window truthy duplicate-free tab ids and
at most one active tab) and duplicate-free trackers, a second
reconciliation against the unchanged snapshot returns the first run's
tracker list and clock unchanged and counts zero changes — and since the
snapshot is persisted only when the change counter is positive, the
persisted snapshot also stays what the first run wrote. -/
theorem reconcile_idempotent (trs : List TabTracker) (ws : List HostWindow)
    (c : Nat)
    (hN : ∀ t ∈ trs, (trackedIds t).Nodup)
    (hwids : (ws.map (·.id)).Nodup)
    (hws : ∀ w ∈ ws, w.id ≠ 0 ∧ (∀ t ∈ w.tabs, t.id ≠ 0) ∧
      (windowTabIds w).Nodup ∧ (w.tabs.filter (·.active)).length ≤ 1) :
    reconcileWithBrowserState (reconcileWithBrowserState trs ws c).trackers ws
        (reconcileWithBrowserState trs ws c).clock =
      { trackers := (reconcileWithBrowserState trs ws c).trackers,
        clock := (reconcileWithBrowserState trs ws c).clock,
        changes := 0 } := by
  set r1 := reconcileWithBrowserState trs ws c with hr1
  have hq : ∀ t ∈ r1.trackers, (ws.map (·.id)).contains t.wid = true := by
    intro t ht
    rw [hr1] at ht
    simp only [reconcileWithBrowserState] at ht
    exact (List.mem_filter.1 ht).2
  have hA : ∀ w ∈ ws, ∃ T,
      getWindowTracker r1.trackers w.id = some T ∧ syncedWith T w := by
    intro w hw
    obtain ⟨T, hT, hs⟩ := reconcileLoop_sync ws hwids hws trs c 0 hN w hw
    refine ⟨T, ?_, hs⟩
    rw [hr1]
    simp only [reconcileWithBrowserState]
    rw [getWindowTracker_filter]
    · exact hT
    · intro x hx
      rw [contains_iff_mem, hx]
      exact List.mem_map.2 ⟨w, hw, rfl⟩
  have hloop2 : reconcileLoop r1.trackers ws r1.clock 0 =
      { trackers := r1.trackers, clock := r1.clock, changes := 0 } :=
    reconcileLoop_id ws r1.trackers r1.clock 0 (fun w hw => (hws w hw).1) hA
  have hfs : r1.trackers.filter (fun t => (ws.map (·.id)).contains t.wid) =
      r1.trackers := List.filter_eq_self.2 hq
  have hfn : r1.trackers.filter (fun t => !((ws.map (·.id)).contains t.wid)) = [] := by
    rw [List.filter_eq_nil_iff]
    intro t ht
    intro hcontra
    rw [hq t ht] at hcontra
    exact Bool.noConfusion hcontra
  show reconcileWithBrowserState r1.trackers ws r1.clock = _
  simp only [reconcileWithBrowserState, hloop2, hfs, hfn]
  rfl

/-- Witness for C6: a tracker for a vanished window plus a fresh live
window — the first run repairs everything (added window, dropped orphan
tracker), the second run is a no-op with zero changes. -/
theorem reconcile_idempotent_witness :
    reconcileWithBrowserState
        (reconcileWithBrowserState [{ tabarr := [⟨7, 5⟩], wid := 2, moveok := true }]
          liveWindows 0).trackers
        liveWindows
        (reconcileWithBrowserState [{ tabarr := [⟨7, 5⟩], wid := 2, moveok := true }]
          liveWindows 0).clock =
      { trackers := (reconcileWithBrowserState
          [{ tabarr := [⟨7, 5⟩], wid := 2, moveok := true }] liveWindows 0).trackers,
        clock := (reconcileWithBrowserState
          [{ tabarr := [⟨7, 5⟩], wid := 2, moveok := true }] liveWindows 0).clock,
        changes := 0 } :=
  reconcile_idempotent [{ tabarr := [⟨7, 5⟩], wid := 2, moveok := true }]
    liveWindows 0 (by decide) (by decide) (by decide)

end FLST
